import Mathlib

/-!
Verification of the trick-play serverless pipeline (thumbnail extractor,
manifest composer, cache invalidator) against its natural-language
specification.  Strings are modelled as `List Char`; Python's `in`,
`str.replace` (all occurrences and count=1), `str.split` and storage
(S3) state are embedded as executable Lean functions.
-/

abbrev Str := List Char

def chars (s : String) : Str := s.data

def natChars (n : Nat) : Str := (Nat.repr n).data

/-- Tests whether `pat` occurs at the head of `s`. -/
def strStartsWith : Str → Str → Bool
  | _, [] => true
  | [], _ :: _ => false
  | c :: s, p :: ps => decide (c = p) && strStartsWith s ps

/-- Python `pat in s`: `pat` occurs as a contiguous substring of `s`. -/
def containsSubstr : Str → Str → Bool
  | [], pat => strStartsWith [] pat
  | c :: cs, pat => strStartsWith (c :: cs) pat || containsSubstr cs pat

/-- Split `s` around the first occurrence of `pat`: `some (p, q)` with
`s = p ++ pat ++ q` and the occurrence leftmost, `none` when absent. -/
def splitAtFirst : Str → Str → Option (Str × Str)
  | [], pat => if strStartsWith [] pat then some ([], []) else none
  | c :: cs, pat =>
    if strStartsWith (c :: cs) pat then some ([], (c :: cs).drop pat.length)
    else
      match splitAtFirst cs pat with
      | none => none
      | some (p, q) => some (c :: p, q)

/-- Python `s.replace(pat, rep, 1)`: replace the leftmost occurrence. -/
def replaceFirst : Str → Str → Str → Str
  | [], pat, rep => if strStartsWith [] pat then rep else []
  | c :: cs, pat, rep =>
    if strStartsWith (c :: cs) pat then rep ++ (c :: cs).drop pat.length
    else c :: replaceFirst cs pat rep

/-- Left-to-right scanner for `replaceAll`: the `Nat` argument counts
characters of an already-matched occurrence still to be consumed (they
were replaced, so they are dropped without being re-tested). -/
def replaceAllGo (pat rep : Str) : Nat → Str → Str
  | _, [] => []
  | Nat.succ n, _ :: cs => replaceAllGo pat rep n cs
  | 0, c :: cs =>
    if strStartsWith (c :: cs) pat then rep ++ replaceAllGo pat rep (pat.length - 1) cs
    else c :: replaceAllGo pat rep 0 cs

/-- Python `s.replace(pat, rep)` for non-empty `pat`: replace every
(non-overlapping, left-to-right) occurrence; the replacement text is not
rescanned. -/
def replaceAll (s pat rep : Str) : Str :=
  if pat.isEmpty then s else replaceAllGo pat rep 0 s

/-- Python `s.split(c, 1)[1]`: the part after the first occurrence of the
separator character, `none` (IndexError) when the separator is absent. -/
def splitOnceAfter : Str → Char → Option Str
  | [], _ => none
  | a :: as, c => if a = c then some as else splitOnceAfter as c

/-- Python `s.split("/")[-1]`: the component after the last slash. -/
def last_component (s : Str) : Str :=
  s.foldl (fun acc c => if c = '/' then [] else acc ++ [c]) []

/-- Python `"\n".join(lines)`. -/
def joinLines : List Str → Str
  | [] => []
  | [l] => l
  | l :: l' :: ls => l ++ '\n' :: joinLines (l' :: ls)

/-- Split a string at every newline character (inverse of `joinLines` on
newline-free lines). -/
def splitLines : Str → List Str
  | [] => [[]]
  | c :: cs =>
    if c = '\n' then [] :: splitLines cs
    else
      match splitLines cs with
      | [] => [[c]]
      | l :: ls => (c :: l) :: ls

/-- The Python for-loop appending a block of lines per element. -/
def flatMapL (f : α → List β) : List α → List β
  | [] => []
  | a :: as => f a ++ flatMapL f as

/-! ## Shared model: errors, configuration, object storage -/

/-- Exceptions of the Python code: the `TrickPlayError` hierarchy of
`shared/errors.py` plus the built-in exceptions the code can raise. -/
inductive PyError
  | S3Error (msg : Str)
  | FFMpegError (msg : Str)
  | ManifestGenerationError (msg : Str)
  | CDNInvalidationError (msg : Str)
  | ConfigurationError (msg : Str)
  | IndexError
deriving DecidableEq, Repr

/-- Python `str(e)` on an exception. -/
def PyError.msg : PyError → Str
  | .S3Error m => m
  | .FFMpegError m => m
  | .ManifestGenerationError m => m
  | .CDNInvalidationError m => m
  | .ConfigurationError m => m
  | .IndexError => chars "list index out of range"

/-- Decidable equality of `Except` outcomes (for concrete witnesses). -/
def exceptDecEq {ε α : Type} [DecidableEq ε] [DecidableEq α] :
    DecidableEq (Except ε α) := fun x y =>
  match x, y with
  | .ok a, .ok b =>
    if h : a = b then .isTrue (by rw [h]) else .isFalse (by intro hc; cases hc; exact h rfl)
  | .error a, .error b =>
    if h : a = b then .isTrue (by rw [h]) else .isFalse (by intro hc; cases hc; exact h rfl)
  | .ok _, .error _ => .isFalse (by intro hc; cases hc)
  | .error _, .ok _ => .isFalse (by intro hc; cases hc)

instance {ε α : Type} [DecidableEq ε] [DecidableEq α] : DecidableEq (Except ε α) :=
  exceptDecEq

/-- Python truthiness of an optional string: `None` and `""` are falsy. -/
def truthy : Option Str → Option Str
  | none => none
  | some s => if s.isEmpty then none else some s

/-- Environment-derived configuration of the shared config module, with
the defaults of the source. -/
structure Config where
  AWS_S3_BUCKET : Option Str := none
  AWS_CLOUDFRONT_DISTRIBUTION_ID : Option Str := none
  THUMBNAIL_INTERVAL : Nat := 10
  THUMBNAIL_WIDTH : Nat := 320
  THUMBNAIL_HEIGHT : Nat := 180
  THUMBNAIL_FORMAT : Str := chars "jpg"
  THUMBNAIL_BIG_WIDTH : Nat := 640
  THUMBNAIL_BIG_HEIGHT : Nat := 360
  THUMBNAIL_SMALL_BANDWIDTH : Nat := 16460
  THUMBNAIL_BIG_BANDWIDTH : Nat := 32920
  THUMBNAILS_FOLDER : Str := chars "thumbs"
  SQS_MANIFEST_QUEUE_URL : Option Str := none
  SQS_CACHE_INVALIDATION_QUEUE_URL : Option Str := none
deriving DecidableEq

def defaultConfig : Config := {}

/-- Derived config field: small resolution text, width then x then height. -/
def Config.THUMBNAIL_SMALL_RESOLUTION (c : Config) : Str :=
  natChars c.THUMBNAIL_WIDTH ++ chars "x" ++ natChars c.THUMBNAIL_HEIGHT

/-- Derived config field: big resolution text, width then x then height. -/
def Config.THUMBNAIL_BIG_RESOLUTION (c : Config) : Str :=
  natChars c.THUMBNAIL_BIG_WIDTH ++ chars "x" ++ natChars c.THUMBNAIL_BIG_HEIGHT

def Config.THUMBNAIL_SMALL_SUFFIX : Str := chars "_small"

def Config.THUMBNAIL_BIG_SUFFIX : Str := chars "_big"

/-- Validation of required configuration: succeeds iff bucket and
distribution id are truthy. -/
def Config.validateOk (c : Config) : Bool :=
  (truthy c.AWS_S3_BUCKET).isSome && (truthy c.AWS_CLOUDFRONT_DISTRIBUTION_ID).isSome

/-- The object store (a single S3 bucket): an association list from keys
to string bodies, newest entry first. -/
structure S3 where
  objects : List (Str × Str)
deriving DecidableEq

def lookupStr (k : Str) : List (Str × Str) → Option Str
  | [] => none
  | (k', v) :: rest => if k' = k then some v else lookupStr k rest

/-- Successful case of the storage get-object helper. -/
def S3.get (σ : S3) (k : Str) : Option Str := lookupStr k σ.objects

/-- Storage put-object and upload-file helpers: overwrite the object at `k`. -/
def S3.put (σ : S3) (k v : Str) : S3 := ⟨(k, v) :: σ.objects⟩

/-! ## Manifest Composer (`src/manifest_updater/updater.py`) -/

/-- Derivation of the master playlist key, updater line 165: strip every
s3-scheme marker from the HLS URL, then take the part after the first
slash; `none` models the IndexError raised when no slash remains. -/
def playlist_key_of (hls_url : Str) : Option Str :=
  splitOnceAfter (replaceAll hls_url (chars "s3://") []) '/'

/-- Relative path of the thumbnail references, updater line 95. -/
def manifest_relative_path (media_path : Str) : Str :=
  if containsSubstr media_path (chars "hls/") then chars "../thumbs/" else chars "thumbs/"

/-- Fixed manifest header, updater lines 98-106. -/
def manifest_header_lines (cfg : Config) : List Str :=
  [chars "#EXTM3U",
   chars "#EXT-X-TARGETDURATION:" ++ natChars cfg.THUMBNAIL_INTERVAL,
   chars "#EXT-X-VERSION:7",
   chars "#EXT-X-MEDIA-SEQUENCE:1",
   chars "#EXT-X-PLAYLIST-TYPE:VOD",
   chars "#EXT-X-IMAGES-ONLY",
   []]

/-- The four lines appended per thumbnail, updater lines 109-116. -/
def manifest_entry_lines (cfg : Config) (relative_path resolution thumbnail_key : Str) :
    List Str :=
  [chars "#EXTINF:" ++ natChars cfg.THUMBNAIL_INTERVAL ++ chars ".000,",
   chars "#EXT-X-TILES:RESOLUTION=" ++ resolution ++ chars ",LAYOUT=1x1,DURATION=" ++
     natChars cfg.THUMBNAIL_INTERVAL ++ chars ".000",
   relative_path ++ last_component thumbnail_key,
   []]

/-- All lines of a per-resolution manifest, updater lines 98-118. -/
def manifest_lines (cfg : Config) (media_path : Str) (thumbnails : List Str)
    (resolution : Str) : List Str :=
  manifest_header_lines cfg ++
    flatMapL (manifest_entry_lines cfg (manifest_relative_path media_path) resolution)
      thumbnails ++
    [chars "#EXT-X-ENDLIST"]

/-- Manifest body: the manifest lines joined with newlines, updater line 119. -/
def manifest_content (cfg : Config) (media_path : Str) (thumbnails : List Str)
    (resolution : Str) : Str :=
  joinLines (manifest_lines cfg media_path thumbnails resolution)

/-- Manifest object filename: thumbs_ then the resolution then the playlist extension, updater line 122. -/
def manifest_filename (resolution : Str) : Str :=
  chars "thumbs_" ++ resolution ++ chars ".m3u8"

/-- The image-stream reference line, updater lines 178-181. -/
def image_stream_line (bandwidth : Nat) (resolution mf : Str) : Str :=
  chars "#EXT-X-IMAGE-STREAM-INF:BANDWIDTH=" ++ natChars bandwidth ++
    chars ",RESOLUTION=" ++ resolution ++ chars ",CODECS=\"jpeg\",URI=\"" ++ mf ++
    chars "\"\n"

/-- Pure part of the merge, updater lines 168-196: given the fetched
master playlist, `none` when the manifest filename is already present
(no write), otherwise `some` of the updated document. -/
def merged_playlist (playlist_content mf resolution : Str) (bandwidth : Nat) :
    Option Str :=
  if containsSubstr playlist_content mf then none
  else
    let line := image_stream_line bandwidth resolution mf
    if containsSubstr playlist_content (chars "#EXT-X-STREAM-INF") then
      some (replaceFirst playlist_content (chars "#EXT-X-STREAM-INF")
        (line ++ chars "#EXT-X-STREAM-INF"))
    else
      some (replaceAll playlist_content (chars "#EXT-X-ENDLIST")
        (line ++ chars "#EXT-X-ENDLIST"))

/-- Model of the updater's private update-main-playlist method: fetch,
idempotency check, splice, re-upload.  Returns the storage state after the call together
with the outcome; on error the state is unchanged (nothing was written
yet). -/
def update_main_playlist (σ : S3) (hls_url mf resolution : Str) (bandwidth : Nat) :
    S3 × Except PyError Unit :=
  match playlist_key_of hls_url with
  | none => (σ, .error .IndexError)
  | some playlist_key =>
    match σ.get playlist_key with
    | none => (σ, .error (.S3Error (chars "Error getting object")))
    | some playlist_content =>
      match merged_playlist playlist_content mf resolution bandwidth with
      | none => (σ, .ok ())
      | some updated => (σ.put playlist_key updated, .ok ())

/-- Model of the updater's private create-manifest method: build and
upload the manifest, then update the main playlist.  Side effects before an exception
persist. -/
def create_manifest (cfg : Config) (σ : S3) (media_path hls_url : Str)
    (thumbnails : List Str) (resolution : Str) (bandwidth : Nat) :
    S3 × Except PyError Str :=
  let content := manifest_content cfg media_path thumbnails resolution
  let mf := manifest_filename resolution
  let manifest_key := media_path ++ mf
  let σ1 := σ.put manifest_key content
  match update_main_playlist σ1 hls_url mf resolution bandwidth with
  | (σ2, .ok _) => (σ2, .ok (chars "Created " ++ mf ++ chars " for " ++ resolution))
  | (σ2, .error e) => (σ2, .error e)

/-- Model of the updater's public entry point: process the
non-empty lists (small then big) and wrap any failure in a
`ManifestGenerationError`. -/
def create_manifests_and_update_playlist (cfg : Config) (σ : S3)
    (media_path hls_url : Str) (small_thumbnails big_thumbnails : List Str) :
    S3 × Except PyError (List (String × Str)) :=
  let step1 : S3 × Except PyError (List (String × Str)) :=
    if small_thumbnails.isEmpty then (σ, .ok [])
    else
      match create_manifest cfg σ media_path hls_url small_thumbnails
        cfg.THUMBNAIL_SMALL_RESOLUTION cfg.THUMBNAIL_SMALL_BANDWIDTH with
      | (σ', .ok m) => (σ', .ok [("small", m)])
      | (σ', .error e) => (σ', .error e)
  match step1 with
  | (σ1, .error e) =>
    (σ1, .error (.ManifestGenerationError (chars "Failed to create manifests for " ++
      media_path ++ chars ": " ++ e.msg)))
  | (σ1, .ok rs) =>
    if big_thumbnails.isEmpty then (σ1, .ok rs)
    else
      match create_manifest cfg σ1 media_path hls_url big_thumbnails
        cfg.THUMBNAIL_BIG_RESOLUTION cfg.THUMBNAIL_BIG_BANDWIDTH with
      | (σ2, .ok m) => (σ2, .ok (rs ++ [("big", m)]))
      | (σ2, .error e) =>
        (σ2, .error (.ManifestGenerationError (chars "Failed to create manifests for " ++
          media_path ++ chars ": " ++ e.msg)))

/-! ## Thumbnail Extractor (`src/trick_play_generator/generator.py`)

The external frame sampler (FFmpeg) is a black box: one invocation is
modelled by its observable outcome — return code, captured stderr and
the files left in the scratch output directory. -/

/-- Outcome of one `subprocess.Popen(["ffmpeg", ...]).communicate()`:
return code, captured stderr bytes, and the `(filename, bytes)` files
present in the output directory afterwards. -/
structure FFmpegRun where
  returncode : Int
  stderr : Str
  files : List (Str × Str)
deriving DecidableEq

/-- Lexicographic order on strings, as Python `sorted` uses on `str`. -/
def strLe : Str → Str → Bool
  | [], _ => true
  | _ :: _, [] => false
  | x :: xs, y :: ys => if x = y then strLe xs ys else decide (x < y)

def insertByName (f : Str × Str) : List (Str × Str) → List (Str × Str)
  | [] => [f]
  | g :: gs => if strLe f.1 g.1 then f :: g :: gs else g :: insertByName f gs

/-- Python `sorted(os.listdir(dir))` on the run's files (stable,
ascending by name). -/
def sortedFiles (fs : List (Str × Str)) : List (Str × Str) :=
  fs.foldr insertByName []

/-- Model of the generator's per-resolution method: check the sampler's
exit code (raising `FFMpegError` with the captured stderr on failure),
then upload every produced file with the configured image extension
under the thumbnails folder in lexical order, returning the ordered key
list. -/
def generate_resolution_thumbnails (cfg : Config) (σ : S3) (run : FFmpegRun)
    (media_key media_path : Str) : S3 × Except PyError (List Str) :=
  if run.returncode ≠ 0 then
    let error_msg := if run.stderr.isEmpty then chars "Unknown FFmpeg error" else run.stderr
    (σ, .error (.FFMpegError (chars "FFmpeg failed for " ++ media_key ++ chars ": " ++
      error_msg)))
  else
    let thumbnails_folder := media_path ++ cfg.THUMBNAILS_FOLDER ++ chars "/"
    let step := fun (acc : S3 × List Str) (f : Str × Str) =>
      if (chars "." ++ cfg.THUMBNAIL_FORMAT).isSuffixOf f.1 then
        (acc.1.put (thumbnails_folder ++ f.1) f.2, acc.2 ++ [thumbnails_folder ++ f.1])
      else acc
    let out := (sortedFiles run.files).foldl step (σ, [])
    (out.1, .ok out.2)

/-- Model of the generator's public entry point: download the manifest,
run the sampler once per resolution profile (small then big), and wrap
any failure in an `FFMpegError`.  The two `FFmpegRun` arguments are the
oracles for the two external invocations. -/
def generate_thumbnails (cfg : Config) (σ : S3) (hls_url media_key media_path : Str)
    (smallRun bigRun : FFmpegRun) : S3 × Except PyError (List Str × List Str) :=
  let wrap := fun (e : PyError) =>
    PyError.FFMpegError (chars "Failed to generate thumbnails for " ++ media_key ++
      chars ": " ++ e.msg)
  match playlist_key_of hls_url with
  | none => (σ, .error (wrap .IndexError))
  | some key =>
    match σ.get key with
    | none => (σ, .error (wrap (.S3Error (chars "Error downloading"))))
    | some _ =>
      match generate_resolution_thumbnails cfg σ smallRun media_key media_path with
      | (σ1, .error e) => (σ1, .error (wrap e))
      | (σ1, .ok small_thumbnails) =>
        match generate_resolution_thumbnails cfg σ1 bigRun media_key media_path with
        | (σ2, .error e) => (σ2, .error (wrap e))
        | (σ2, .ok big_thumbnails) => (σ2, .ok (small_thumbnails, big_thumbnails))

/-! ## Cache Invalidator (`src/cache_invalidator/invalidator.py`)

The CloudFront `create_invalidation` provider call is an oracle
(`Except Str Str`: error or invalidation id).  Every function returns
the list of provider calls actually performed so "no network call" is
observable. -/

/-- Model of the CloudFront invalidate-paths helper. -/
def invalidate_paths (dist_id : Str) (paths : List Str) (cdn : Except Str Str) :
    Except PyError (Option Str) × List (Str × List Str) :=
  if paths.isEmpty then (.ok none, [])
  else
    match cdn with
    | .ok invalidation_id => (.ok (some invalidation_id), [(dist_id, paths)])
    | .error e =>
      (.error (.CDNInvalidationError (chars "Error invalidating CloudFront: " ++ e)),
       [(dist_id, paths)])

/-- Model of the invalidator's public entry point: resolve the distribution id
(argument `or` config, Python falsy semantics), fail if none, no-op on
an empty path list, otherwise submit one batch; any exception is
re-raised as `CDNInvalidationError`. -/
def invalidate_cache (cfgDist : Option Str) (paths : List Str)
    (distribution_id : Option Str) (cdn : Except Str Str) :
    Except PyError (Option Str) × List (Str × List Str) :=
  match (truthy distribution_id).orElse (fun _ => truthy cfgDist) with
  | none =>
    (.error (.CDNInvalidationError
      (chars "Failed to invalidate cache: CloudFront distribution ID not configured")), [])
  | some dist_id =>
    if paths.isEmpty then (.ok none, [])
    else
      match invalidate_paths dist_id paths cdn with
      | (.ok r, calls) => (.ok r, calls)
      | (.error e, calls) =>
        (.error (.CDNInvalidationError (chars "Failed to invalidate cache: " ++ e.msg)),
         calls)

/-! ## Lambda handlers (`src/manifest_updater/handler.py`,
`src/cache_invalidator/handler.py`) -/

/-- Hard-coded CloudFront invalidation paths, manifest-updater handler
lines 115-122. -/
def build_invalidation_paths (media_path : Str) : List Str :=
  [chars "/" ++ media_path ++ chars "play.m3u8",
   chars "/" ++ media_path ++ chars "thumbs_320x180.m3u8",
   chars "/" ++ media_path ++ chars "thumbs_640x360.m3u8",
   chars "/" ++ media_path ++ chars "thumbs/*"]

/-- Parsed body of a manifest-updater SQS message. -/
structure UpdaterMsg where
  media_key : Str
  media_path : Str
  hls_url : Str
  small_thumbnails : List Str
  big_thumbnails : List Str
deriving DecidableEq

/-- One SQS record as seen by the manifest-updater handler; `body = none`
models a malformed (non-JSON) body, on which `json.loads` raises. -/
structure SqsRecord where
  body : Option UpdaterMsg
  receiptHandle : Str
deriving DecidableEq

/-- Message published to the cache-invalidation queue. -/
structure SentMsg where
  media_key : Str
  media_path : Str
  paths_to_invalidate : List Str
deriving DecidableEq

/-- Body of the per-record `try` of the manifest-updater handler: any
exception (malformed body or processing failure) is caught and logged,
leaving the S3 writes already performed in place and publishing
nothing. -/
def updater_process_record (cfg : Config) (σ : S3) (r : SqsRecord) : S3 × List SentMsg :=
  match r.body with
  | none => (σ, [])
  | some m =>
    match create_manifests_and_update_playlist cfg σ m.media_path m.hls_url
      m.small_thumbnails m.big_thumbnails with
    | (σ', .error _) => (σ', [])
    | (σ', .ok _) =>
      match cfg.SQS_CACHE_INVALIDATION_QUEUE_URL with
      | none => (σ', [])
      | some _ =>
        (σ', [⟨m.media_key, m.media_path, build_invalidation_paths m.media_path⟩])

/-- The `for record in event.get("Records", [])` loop of the
manifest-updater handler: records processed sequentially, storage state
threaded through, published messages accumulated in order. -/
def updater_handler_records (cfg : Config) (σ : S3) : List SqsRecord → S3 × List SentMsg
  | [] => (σ, [])
  | r :: rs =>
    let step := updater_process_record cfg σ r
    let rest := updater_handler_records cfg step.1 rs
    (rest.1, step.2 ++ rest.2)

/-- An HTTP-style handler response (body text omitted). -/
structure HandlerResponse where
  statusCode : Nat
deriving DecidableEq

/-- Model of the manifest-updater lambda handler: validate configuration
(a `ValueError` there is caught by the outer generic handler, status
500), then run the per-record loop and return status 200. -/
def updater_lambda_handler (cfg : Config) (σ : S3) (records : List SqsRecord) :
    S3 × List SentMsg × HandlerResponse :=
  if cfg.validateOk then
    let out := updater_handler_records cfg σ records
    (out.1, out.2, ⟨200⟩)
  else (σ, [], ⟨500⟩)

/-- Parsed body of a cache-invalidator SQS message. -/
structure InvMsg where
  media_key : Str
  paths_to_invalidate : List Str
deriving DecidableEq

/-- One SQS record as seen by the cache-invalidator handler, with the
CDN oracle for the provider call its processing would make. -/
structure InvRecord where
  body : Option InvMsg
  receiptHandle : Str
  cdn : Except Str Str

/-- Per-record `try` of the cache-invalidator handler: exceptions
(malformed body, missing distribution id, provider failure) are caught
and logged; the provider calls made are the observable effect. -/
def invalidator_process_record (cfg : Config) (r : InvRecord) : List (Str × List Str) :=
  match r.body with
  | none => []
  | some m =>
    (invalidate_cache cfg.AWS_CLOUDFRONT_DISTRIBUTION_ID m.paths_to_invalidate
      cfg.AWS_CLOUDFRONT_DISTRIBUTION_ID r.cdn).2

/-- The record loop of the cache-invalidator handler. -/
def invalidator_handler_records (cfg : Config) : List InvRecord → List (Str × List Str)
  | [] => []
  | r :: rs => invalidator_process_record cfg r ++ invalidator_handler_records cfg rs

/-- Model of the cache-invalidator lambda handler. -/
def invalidator_lambda_handler (cfg : Config) (records : List InvRecord) :
    List (Str × List Str) × HandlerResponse :=
  if cfg.validateOk then (invalidator_handler_records cfg records, ⟨200⟩)
  else ([], ⟨500⟩)

/-! ## Lemma development -/

theorem sw_pat_nil (s : Str) : strStartsWith s [] = true := by
  cases s <;> rfl

theorem sw_of_nil (pat : Str) (h : strStartsWith [] pat = true) : pat = [] := by
  cases pat with
  | nil => rfl
  | cons p ps => simp [strStartsWith] at h

theorem sw_append_drop (pat : Str) : ∀ s : Str, strStartsWith s pat = true →
    pat ++ s.drop pat.length = s := by
  induction pat with
  | nil => intro s _; simp
  | cons p ps ih =>
    intro s h
    cases s with
    | nil => simp [strStartsWith] at h
    | cons c cs =>
      simp only [strStartsWith, Bool.and_eq_true, decide_eq_true_eq] at h
      simp only [List.cons_append, List.length_cons, List.drop_succ_cons]
      rw [h.1, ih cs h.2]

theorem sw_append_self (pat r : Str) : strStartsWith (pat ++ r) pat = true := by
  induction pat with
  | nil => exact sw_pat_nil r
  | cons p ps ih => simp [strStartsWith, ih]

theorem sw_length_le (pat s : Str) (h : strStartsWith s pat = true) :
    pat.length ≤ s.length := by
  have hd := sw_append_drop pat s h
  have h2 : (pat ++ s.drop pat.length).length = s.length := by rw [hd]
  simp only [List.length_append] at h2
  omega

theorem containsSubstr_of_sw (s pat : Str) (h : strStartsWith s pat = true) :
    containsSubstr s pat = true := by
  cases s <;> simp [containsSubstr, h]

theorem containsSubstr_append_mid (pat : Str) : ∀ x y : Str,
    containsSubstr (x ++ (pat ++ y)) pat = true := by
  intro x
  induction x with
  | nil =>
    intro y
    simpa using containsSubstr_of_sw (pat ++ y) pat (sw_append_self pat y)
  | cons c x' ih =>
    intro y
    simp [containsSubstr, ih y]

theorem containsSubstr_pat_nil (s : Str) : containsSubstr s [] = true := by
  cases s <;> simp [containsSubstr, sw_pat_nil]

theorem containsSubstr_cons_false {c : Char} {cs pat : Str}
    (h : containsSubstr (c :: cs) pat = false) :
    strStartsWith (c :: cs) pat = false ∧ containsSubstr cs pat = false := by
  simpa [containsSubstr] using h

theorem splitAtFirst_isSome (pat : Str) : ∀ s : Str, containsSubstr s pat = true →
    ∃ p q, splitAtFirst s pat = some (p, q) := by
  intro s
  induction s with
  | nil =>
    intro h
    simp only [containsSubstr] at h
    exact ⟨[], [], by simp [splitAtFirst, h]⟩
  | cons c cs ih =>
    intro h
    by_cases hsw : strStartsWith (c :: cs) pat = true
    · exact ⟨[], (c :: cs).drop pat.length, by simp [splitAtFirst, hsw]⟩
    · simp only [Bool.not_eq_true] at hsw
      simp only [containsSubstr, hsw, Bool.false_or] at h
      obtain ⟨p, q, hpq⟩ := ih h
      exact ⟨c :: p, q, by simp [splitAtFirst, hsw, hpq]⟩

theorem splitAtFirst_decomp (pat : Str) : ∀ s p q : Str,
    splitAtFirst s pat = some (p, q) → s = p ++ pat ++ q := by
  intro s
  induction s with
  | nil =>
    intro p q h
    by_cases hsw : strStartsWith [] pat = true
    · have hp := sw_of_nil pat hsw
      simp only [splitAtFirst, hsw, if_pos, Option.some.injEq, Prod.mk.injEq] at h
      obtain ⟨rfl, rfl⟩ := h.symm
      simp [hp]
    · simp only [Bool.not_eq_true] at hsw
      simp [splitAtFirst, hsw] at h
  | cons c cs ih =>
    intro p q h
    by_cases hsw : strStartsWith (c :: cs) pat = true
    · simp only [splitAtFirst, hsw, if_pos, Option.some.injEq, Prod.mk.injEq] at h
      obtain ⟨rfl, rfl⟩ := h.symm
      simpa using (sw_append_drop pat (c :: cs) hsw).symm
    · simp only [Bool.not_eq_true] at hsw
      simp only [splitAtFirst, hsw, Bool.false_eq_true, if_false] at h
      cases hcs : splitAtFirst cs pat with
      | none => rw [hcs] at h; simp at h
      | some pq =>
        obtain ⟨p₀, q₀⟩ := pq
        rw [hcs] at h
        simp only [Option.some.injEq, Prod.mk.injEq] at h
        obtain ⟨rfl, rfl⟩ := h.symm
        have hd := ih p₀ q₀ hcs
        simp [hd]

theorem replaceFirst_of_split (pat rep : Str) : ∀ s p q : Str,
    splitAtFirst s pat = some (p, q) → replaceFirst s pat rep = p ++ rep ++ q := by
  intro s
  induction s with
  | nil =>
    intro p q h
    by_cases hsw : strStartsWith [] pat = true
    · simp only [splitAtFirst, hsw, if_pos, Option.some.injEq, Prod.mk.injEq] at h
      obtain ⟨rfl, rfl⟩ := h.symm
      simp [replaceFirst, hsw]
    · simp only [Bool.not_eq_true] at hsw
      simp [splitAtFirst, hsw] at h
  | cons c cs ih =>
    intro p q h
    by_cases hsw : strStartsWith (c :: cs) pat = true
    · simp only [splitAtFirst, hsw, if_pos, Option.some.injEq, Prod.mk.injEq] at h
      obtain ⟨rfl, rfl⟩ := h.symm
      simp [replaceFirst, hsw]
    · simp only [Bool.not_eq_true] at hsw
      simp only [splitAtFirst, hsw, Bool.false_eq_true, if_false] at h
      cases hcs : splitAtFirst cs pat with
      | none => rw [hcs] at h; simp at h
      | some pq =>
        obtain ⟨p₀, q₀⟩ := pq
        rw [hcs] at h
        simp only [Option.some.injEq, Prod.mk.injEq] at h
        obtain ⟨rfl, rfl⟩ := h.symm
        simp [replaceFirst, hsw, ih p₀ q₀ hcs]

theorem splitAtFirst_min (pat : Str) : ∀ s p q : Str,
    splitAtFirst s pat = some (p, q) →
    ∀ p' q' : Str, s = p' ++ pat ++ q' → p.length ≤ p'.length := by
  intro s
  induction s with
  | nil =>
    intro p q h p' q' _
    by_cases hsw : strStartsWith [] pat = true
    · simp only [splitAtFirst, hsw, if_pos, Option.some.injEq, Prod.mk.injEq] at h
      obtain ⟨rfl, rfl⟩ := h.symm
      simp
    · simp only [Bool.not_eq_true] at hsw
      simp [splitAtFirst, hsw] at h
  | cons c cs ih =>
    intro p q h p' q' heq
    by_cases hsw : strStartsWith (c :: cs) pat = true
    · simp only [splitAtFirst, hsw, if_pos, Option.some.injEq, Prod.mk.injEq] at h
      obtain ⟨rfl, rfl⟩ := h.symm
      simp
    · simp only [Bool.not_eq_true] at hsw
      simp only [splitAtFirst, hsw, Bool.false_eq_true, if_false] at h
      cases hcs : splitAtFirst cs pat with
      | none => rw [hcs] at h; simp at h
      | some pq =>
        obtain ⟨p₀, q₀⟩ := pq
        rw [hcs] at h
        simp only [Option.some.injEq, Prod.mk.injEq] at h
        obtain ⟨rfl, rfl⟩ := h.symm
        cases p' with
        | nil =>
          exfalso
          simp only [List.nil_append] at heq
          have hs : strStartsWith (c :: cs) pat = true := by
            rw [heq]; exact sw_append_self pat q'
          rw [hs] at hsw
          exact absurd hsw (by simp)
        | cons c' p'' =>
          simp only [List.cons_append, List.cons.injEq] at heq
          have hle := ih p₀ q₀ hcs p'' q' heq.2
          simp only [List.length_cons]
          omega

theorem replaceAllGo_id (pat rep : Str) : ∀ s : Str,
    containsSubstr s pat = false → replaceAllGo pat rep 0 s = s := by
  intro s
  induction s with
  | nil => intro _; rfl
  | cons c cs ih =>
    intro h
    obtain ⟨hsw, hcs⟩ := containsSubstr_cons_false h
    simp [replaceAllGo, hsw, ih hcs]

theorem replaceAll_id (s pat rep : Str) (h : containsSubstr s pat = false) :
    replaceAll s pat rep = s := by
  have hpat : pat.isEmpty = false := by
    cases pat with
    | nil => rw [containsSubstr_pat_nil] at h; exact absurd h (by simp)
    | cons p ps => rfl
  simp only [replaceAll, hpat, Bool.false_eq_true, if_false]
  exact replaceAllGo_id pat rep s h

theorem replaceAllGo_skip (pat rep : Str) : ∀ x t : Str,
    replaceAllGo pat rep x.length (x ++ t) = replaceAllGo pat rep 0 t := by
  intro x
  induction x with
  | nil => intro t; rfl
  | cons c x' ih =>
    intro t
    simp only [List.length_cons, List.cons_append]
    rw [show replaceAllGo pat rep (x'.length + 1) (c :: (x' ++ t)) =
      replaceAllGo pat rep x'.length (x' ++ t) from rfl]
    exact ih t

theorem replaceAllGo_head (p : Char) (ps rep : Str) : ∀ t : Str,
    replaceAllGo (p :: ps) rep 0 ((p :: ps) ++ t) = rep ++ replaceAllGo (p :: ps) rep 0 t := by
  intro t
  have hsw : strStartsWith (p :: (ps ++ t)) (p :: ps) = true := by
    simpa using sw_append_self (p :: ps) t
  have hstep : replaceAllGo (p :: ps) rep 0 ((p :: ps) ++ t) =
      rep ++ replaceAllGo (p :: ps) rep ((p :: ps).length - 1) (ps ++ t) := by
    rw [List.cons_append]
    rw [show replaceAllGo (p :: ps) rep 0 (p :: (ps ++ t)) =
      (if strStartsWith (p :: (ps ++ t)) (p :: ps) then
        rep ++ replaceAllGo (p :: ps) rep ((p :: ps).length - 1) (ps ++ t)
      else p :: replaceAllGo (p :: ps) rep 0 (ps ++ t)) from rfl]
    rw [if_pos hsw]
  rw [hstep]
  simp only [List.length_cons, Nat.add_sub_cancel]
  exact congrArg (rep ++ ·) (replaceAllGo_skip (p :: ps) rep ps t)

theorem replaceAll_of_split (p₀ : Char) (ps rep : Str) : ∀ s p q : Str,
    splitAtFirst s (p₀ :: ps) = some (p, q) → containsSubstr q (p₀ :: ps) = false →
    replaceAll s (p₀ :: ps) rep = p ++ rep ++ q := by
  have hmain : ∀ s p q : Str, splitAtFirst s (p₀ :: ps) = some (p, q) →
      containsSubstr q (p₀ :: ps) = false →
      replaceAllGo (p₀ :: ps) rep 0 s = p ++ rep ++ q := by
    intro s
    induction s with
    | nil =>
      intro p q h _
      simp [splitAtFirst, strStartsWith] at h
    | cons c cs ih =>
      intro p q h hq
      by_cases hsw : strStartsWith (c :: cs) (p₀ :: ps) = true
      · simp only [splitAtFirst, hsw, if_pos, Option.some.injEq, Prod.mk.injEq] at h
        obtain ⟨rfl, rfl⟩ := h.symm
        have hdec := sw_append_drop (p₀ :: ps) (c :: cs) hsw
        conv_lhs => rw [← hdec]
        rw [replaceAllGo_head, replaceAllGo_id _ _ _ hq]
        simp
      · simp only [Bool.not_eq_true] at hsw
        simp only [splitAtFirst, hsw, Bool.false_eq_true, if_false] at h
        cases hcs : splitAtFirst cs (p₀ :: ps) with
        | none => rw [hcs] at h; simp at h
        | some pq =>
          obtain ⟨pp, qq⟩ := pq
          rw [hcs] at h
          simp only [Option.some.injEq, Prod.mk.injEq] at h
          obtain ⟨rfl, rfl⟩ := h.symm
          simp [replaceAllGo, hsw, ih pp qq hcs hq]
  intro s p q h hq
  exact hmain s p q h hq

theorem splitOnceAfter_append (c : Char) : ∀ b t : Str, c ∉ b →
    splitOnceAfter (b ++ c :: t) c = some t := by
  intro b
  induction b with
  | nil => intro t _; simp [splitOnceAfter]
  | cons b₀ b' ih =>
    intro t h
    have hne : b₀ ≠ c := by intro hc; exact h (by simp [hc])
    simp only [List.cons_append, splitOnceAfter, if_neg hne]
    exact ih t (fun hm => h (by simp [hm]))

theorem splitLines_no_newline : ∀ l : Str, '\n' ∉ l → splitLines l = [l] := by
  intro l
  induction l with
  | nil => intro _; rfl
  | cons c cs ih =>
    intro h
    have hc : c ≠ '\n' := fun hc => h (by simp [hc])
    have hcs : '\n' ∉ cs := fun hm => h (by simp [hm])
    simp [splitLines, hc, ih hcs]

theorem splitLines_append_newline : ∀ l rest : Str, '\n' ∉ l →
    splitLines (l ++ '\n' :: rest) = l :: splitLines rest := by
  intro l
  induction l with
  | nil => intro rest _; simp [splitLines]
  | cons c cs ih =>
    intro rest h
    have hc : c ≠ '\n' := fun hc => h (by simp [hc])
    have hcs : '\n' ∉ cs := fun hm => h (by simp [hm])
    simp [splitLines, hc, ih rest hcs]

theorem splitLines_joinLines : ∀ ls : List Str, ∀ l : Str,
    (∀ x ∈ l :: ls, '\n' ∉ x) → splitLines (joinLines (l :: ls)) = l :: ls := by
  intro ls
  induction ls with
  | nil =>
    intro l h
    exact splitLines_no_newline l (h l (by simp))
  | cons l' ls' ih =>
    intro l h
    rw [show joinLines (l :: l' :: ls') = l ++ '\n' :: joinLines (l' :: ls') from rfl]
    rw [splitLines_append_newline _ _ (h l (by simp))]
    rw [ih l' (fun x hx => h x (List.mem_cons_of_mem l hx))]

theorem mem_flatMapL {f : α → List β} {b : β} : ∀ as : List α,
    (b ∈ flatMapL f as ↔ ∃ a, a ∈ as ∧ b ∈ f a) := by
  intro as
  induction as with
  | nil => simp [flatMapL]
  | cons a as' ih => simp [flatMapL, ih]

example : containsSubstr (chars "content/v1/hls/") (chars "hls/") = true := by decide
example : containsSubstr (chars "content/v1/") (chars "hls/") = false := by decide
example : replaceAll (chars "s3://b/a.m3u8") (chars "s3://") [] = chars "b/a.m3u8" := by decide
example : splitOnceAfter (chars "b/a/c.m3u8") '/' = some (chars "a/c.m3u8") := by decide
example : last_component (chars "content/v1/thumbs/v1_small.00001.jpg") = chars "v1_small.00001.jpg" := by decide
example : replaceFirst (chars "ab#Xcd#Xe") (chars "#X") (chars "Y#X") = chars "abY#Xcd#Xe" := by decide
example : replaceAll (chars "a#Xc#Xe") (chars "#X") (chars "Y#X") = chars "aY#XcY#Xe" := by decide
example : splitLines (joinLines [chars "a", chars "", chars "bc"]) = [chars "a", chars "", chars "bc"] := by decide


theorem S3.get_put_same (σ : S3) (k v : Str) : (σ.put k v).get k = some v := by
  simp [S3.get, S3.put, lookupStr]

theorem S3.get_put_other (σ : S3) (k k' v : Str) (h : k' ≠ k) :
    (σ.put k v).get k' = σ.get k' := by
  simp only [S3.get, S3.put, lookupStr]
  rw [if_neg (fun hc : k = k' => h hc.symm)]


/-! ## Composer behaviour lemmas -/

theorem update_main_playlist_noop (σ : S3) (hls k content mf res : Str) (bw : Nat)
    (hk : playlist_key_of hls = some k) (hget : σ.get k = some content)
    (hc : containsSubstr content mf = true) :
    update_main_playlist σ hls mf res bw = (σ, .ok ()) := by
  simp [update_main_playlist, hk, hget, merged_playlist, hc]

theorem update_main_playlist_write (σ : S3) (hls k content mf res : Str) (bw : Nat)
    (u : Str) (hk : playlist_key_of hls = some k) (hget : σ.get k = some content)
    (hm : merged_playlist content mf res bw = some u) :
    update_main_playlist σ hls mf res bw = (σ.put k u, .ok ()) := by
  simp [update_main_playlist, hk, hget, hm]

theorem update_main_playlist_frame (σ : S3) (hls mf res : Str) (bw : Nat) (k : Str)
    (hpk : playlist_key_of hls ≠ some k) :
    ((update_main_playlist σ hls mf res bw).1).get k = σ.get k := by
  rcases hq : playlist_key_of hls with _ | pk
  · simp [update_main_playlist, hq]
  · have hne : k ≠ pk := by rintro rfl; exact hpk hq
    rcases hg : σ.get pk with _ | content
    · simp [update_main_playlist, hq, hg]
    · rcases hm : merged_playlist content mf res bw with _ | u
      · simp [update_main_playlist, hq, hg, hm]
      · simp [update_main_playlist, hq, hg, hm, S3.get_put_other _ _ _ _ hne]

theorem create_manifest_of_contains (cfg : Config) (σ : S3) (mp hls k content : Str)
    (ts : List Str) (res : Str) (bw : Nat)
    (hk : playlist_key_of hls = some k)
    (hmk : k ≠ mp ++ manifest_filename res)
    (hget : σ.get k = some content)
    (hc : containsSubstr content (manifest_filename res) = true) :
    create_manifest cfg σ mp hls ts res bw =
      (σ.put (mp ++ manifest_filename res) (manifest_content cfg mp ts res),
       .ok (chars "Created " ++ manifest_filename res ++ chars " for " ++ res)) := by
  have hget1 : (σ.put (mp ++ manifest_filename res)
      (manifest_content cfg mp ts res)).get k = some content := by
    rw [S3.get_put_other _ _ _ _ hmk]; exact hget
  have hupd := update_main_playlist_noop
    (σ.put (mp ++ manifest_filename res) (manifest_content cfg mp ts res)) hls k content
    (manifest_filename res) res bw hk hget1 hc
  simp [create_manifest, hupd]

theorem create_manifest_frame (cfg : Config) (σ : S3) (mp hls : Str) (ts : List Str)
    (res : Str) (bw : Nat) (k : Str)
    (hmk : k ≠ mp ++ manifest_filename res)
    (hpk : playlist_key_of hls ≠ some k) :
    ((create_manifest cfg σ mp hls ts res bw).1).get k = σ.get k := by
  have h1 : (σ.put (mp ++ manifest_filename res)
      (manifest_content cfg mp ts res)).get k = σ.get k :=
    S3.get_put_other _ _ _ _ hmk
  have h2 := update_main_playlist_frame
    (σ.put (mp ++ manifest_filename res) (manifest_content cfg mp ts res)) hls
    (manifest_filename res) res bw k hpk
  simp only [create_manifest]
  rcases hu : update_main_playlist
    (σ.put (mp ++ manifest_filename res) (manifest_content cfg mp ts res)) hls
    (manifest_filename res) res bw with ⟨σ2, r⟩
  rw [hu] at h2
  cases r <;> simpa [h2] using h1

/-! ## Claim C1 -/

/-- C1: idempotent merge — when the master playlist fetched from storage
already contains the per-resolution manifest's filename, the merge step
returns without writing (state unchanged), and hence re-running the
Composer with identical inputs against a master playlist that already
contains both manifest filenames leaves the master playlist content
byte-identical. -/
theorem C1_idempotent_merge (cfg : Config) (σ : S3) (media_path hls_url k content : Str)
    (small big : List Str)
    (hk : playlist_key_of hls_url = some k)
    (hks : k ≠ media_path ++ manifest_filename cfg.THUMBNAIL_SMALL_RESOLUTION)
    (hkb : k ≠ media_path ++ manifest_filename cfg.THUMBNAIL_BIG_RESOLUTION)
    (hget : σ.get k = some content)
    (hs : containsSubstr content (manifest_filename cfg.THUMBNAIL_SMALL_RESOLUTION) = true)
    (hb : containsSubstr content (manifest_filename cfg.THUMBNAIL_BIG_RESOLUTION) = true) :
    update_main_playlist σ hls_url (manifest_filename cfg.THUMBNAIL_SMALL_RESOLUTION)
        cfg.THUMBNAIL_SMALL_RESOLUTION cfg.THUMBNAIL_SMALL_BANDWIDTH = (σ, .ok ()) ∧
    ((create_manifests_and_update_playlist cfg σ media_path hls_url small big).1).get k =
      some content := by
  refine ⟨update_main_playlist_noop σ hls_url k content _ _ _ hk hget hs, ?_⟩
  cases hse : small.isEmpty with
  | true =>
    cases hbe : big.isEmpty with
    | true => simp [create_manifests_and_update_playlist, hse, hbe, hget]
    | false =>
      have hcm := create_manifest_of_contains cfg σ media_path hls_url k content big
        cfg.THUMBNAIL_BIG_RESOLUTION cfg.THUMBNAIL_BIG_BANDWIDTH hk hkb hget hb
      simp [create_manifests_and_update_playlist, hse, hbe, hcm,
        S3.get_put_other _ _ _ _ hkb, hget]
  | false =>
    have hcmS := create_manifest_of_contains cfg σ media_path hls_url k content small
      cfg.THUMBNAIL_SMALL_RESOLUTION cfg.THUMBNAIL_SMALL_BANDWIDTH hk hks hget hs
    have hget1 : (σ.put (media_path ++ manifest_filename cfg.THUMBNAIL_SMALL_RESOLUTION)
        (manifest_content cfg media_path small cfg.THUMBNAIL_SMALL_RESOLUTION)).get k =
        some content := by
      rw [S3.get_put_other _ _ _ _ hks]; exact hget
    cases hbe : big.isEmpty with
    | true => simp [create_manifests_and_update_playlist, hse, hbe, hcmS, hget1]
    | false =>
      have hcmB := create_manifest_of_contains cfg
        (σ.put (media_path ++ manifest_filename cfg.THUMBNAIL_SMALL_RESOLUTION)
          (manifest_content cfg media_path small cfg.THUMBNAIL_SMALL_RESOLUTION))
        media_path hls_url k content big
        cfg.THUMBNAIL_BIG_RESOLUTION cfg.THUMBNAIL_BIG_BANDWIDTH hk hkb hget1 hb
      simp [create_manifests_and_update_playlist, hse, hbe, hcmS, hcmB,
        S3.get_put_other _ _ _ _ hkb, hget1]

theorem C1_idempotent_merge_witness :
    (playlist_key_of (chars "s3://b/a/p.m3u8") = some (chars "a/p.m3u8") ∧
     containsSubstr (chars "thumbs_320x180.m3u8 thumbs_640x360.m3u8")
       (manifest_filename defaultConfig.THUMBNAIL_SMALL_RESOLUTION) = true ∧
     containsSubstr (chars "thumbs_320x180.m3u8 thumbs_640x360.m3u8")
       (manifest_filename defaultConfig.THUMBNAIL_BIG_RESOLUTION) = true) ∧
    (update_main_playlist
        (S3.mk [(chars "a/p.m3u8", chars "thumbs_320x180.m3u8 thumbs_640x360.m3u8")])
        (chars "s3://b/a/p.m3u8") (manifest_filename defaultConfig.THUMBNAIL_SMALL_RESOLUTION)
        defaultConfig.THUMBNAIL_SMALL_RESOLUTION defaultConfig.THUMBNAIL_SMALL_BANDWIDTH =
      (S3.mk [(chars "a/p.m3u8", chars "thumbs_320x180.m3u8 thumbs_640x360.m3u8")], .ok ()) ∧
     ((create_manifests_and_update_playlist defaultConfig
        (S3.mk [(chars "a/p.m3u8", chars "thumbs_320x180.m3u8 thumbs_640x360.m3u8")])
        (chars "a/") (chars "s3://b/a/p.m3u8")
        [chars "t.jpg"] [chars "u.jpg"]).1).get (chars "a/p.m3u8") =
      some (chars "thumbs_320x180.m3u8 thumbs_640x360.m3u8")) :=
  ⟨⟨by decide, by decide, by decide⟩,
   C1_idempotent_merge defaultConfig
     (S3.mk [(chars "a/p.m3u8", chars "thumbs_320x180.m3u8 thumbs_640x360.m3u8")])
     (chars "a/") (chars "s3://b/a/p.m3u8") (chars "a/p.m3u8")
     (chars "thumbs_320x180.m3u8 thumbs_640x360.m3u8")
     [chars "t.jpg"] [chars "u.jpg"]
     (by decide) (by decide) (by decide) (by decide) (by decide) (by decide)⟩

/-! ## Claim C10 -/

/-- C10: if the fetched master playlist contains neither the manifest
filename, nor `#EXT-X-STREAM-INF`, nor `#EXT-X-ENDLIST`, the merge step
writes the playlist back with content identical to what it read — the
image-stream line is not inserted anywhere. -/
theorem C10_no_marker_rewrite (σ : S3) (hls k content mf res : Str) (bw : Nat)
    (hk : playlist_key_of hls = some k)
    (hget : σ.get k = some content)
    (h1 : containsSubstr content mf = false)
    (h2 : containsSubstr content (chars "#EXT-X-STREAM-INF") = false)
    (h3 : containsSubstr content (chars "#EXT-X-ENDLIST") = false) :
    update_main_playlist σ hls mf res bw = (σ.put k content, .ok ()) ∧
    ((update_main_playlist σ hls mf res bw).1).get k = some content := by
  have hid := replaceAll_id content (chars "#EXT-X-ENDLIST")
    (image_stream_line bw res mf ++ chars "#EXT-X-ENDLIST") h3
  have hm : merged_playlist content mf res bw = some content := by
    simp [merged_playlist, h1, h2, hid]
  have hw := update_main_playlist_write σ hls k content mf res bw content hk hget hm
  exact ⟨hw, by rw [hw]; exact S3.get_put_same σ k content⟩

theorem C10_no_marker_rewrite_witness :
    (playlist_key_of (chars "s3://b/a/p.m3u8") = some (chars "a/p.m3u8") ∧
     containsSubstr (chars "#EXTM3U") (chars "thumbs_320x180.m3u8") = false ∧
     containsSubstr (chars "#EXTM3U") (chars "#EXT-X-STREAM-INF") = false ∧
     containsSubstr (chars "#EXTM3U") (chars "#EXT-X-ENDLIST") = false) ∧
    (update_main_playlist (S3.mk [(chars "a/p.m3u8", chars "#EXTM3U")])
        (chars "s3://b/a/p.m3u8") (chars "thumbs_320x180.m3u8") (chars "320x180") 16460 =
      ((S3.mk [(chars "a/p.m3u8", chars "#EXTM3U")]).put (chars "a/p.m3u8")
        (chars "#EXTM3U"), .ok ()) ∧
     ((update_main_playlist (S3.mk [(chars "a/p.m3u8", chars "#EXTM3U")])
        (chars "s3://b/a/p.m3u8") (chars "thumbs_320x180.m3u8") (chars "320x180")
        16460).1).get (chars "a/p.m3u8") = some (chars "#EXTM3U")) :=
  ⟨⟨by decide, by decide, by decide, by decide⟩,
   C10_no_marker_rewrite (S3.mk [(chars "a/p.m3u8", chars "#EXTM3U")])
     (chars "s3://b/a/p.m3u8") (chars "a/p.m3u8") (chars "#EXTM3U")
     (chars "thumbs_320x180.m3u8") (chars "320x180") 16460
     (by decide) (by decide) (by decide) (by decide) (by decide)⟩

theorem replaceAll_of_split_ne (pat rep : Str) (hne : pat ≠ []) :
    ∀ s p q : Str, splitAtFirst s pat = some (p, q) → containsSubstr q pat = false →
    replaceAll s pat rep = p ++ rep ++ q := by
  cases pat with
  | nil => exact absurd rfl hne
  | cons p₀ ps => exact replaceAll_of_split p₀ ps rep

/-! ## Claim C3 -/

/-- C3: merge insertion position — if the master playlist contains
`#EXT-X-STREAM-INF` the Composer inserts the image-stream line strictly
before its first occurrence (the decomposition prefix is of minimal
length over all occurrences); otherwise the line is inserted strictly
before `#EXT-X-ENDLIST` (at its unique occurrence). -/
theorem C3_insertion_position (content mf res : Str) (bw : Nat)
    (hmf : containsSubstr content mf = false) :
    (containsSubstr content (chars "#EXT-X-STREAM-INF") = true →
      ∃ p q, splitAtFirst content (chars "#EXT-X-STREAM-INF") = some (p, q) ∧
        content = p ++ chars "#EXT-X-STREAM-INF" ++ q ∧
        merged_playlist content mf res bw =
          some (p ++ (image_stream_line bw res mf ++ chars "#EXT-X-STREAM-INF") ++ q) ∧
        ∀ p' q', content = p' ++ chars "#EXT-X-STREAM-INF" ++ q' →
          p.length ≤ p'.length) ∧
    (containsSubstr content (chars "#EXT-X-STREAM-INF") = false →
      ∀ p q, splitAtFirst content (chars "#EXT-X-ENDLIST") = some (p, q) →
        containsSubstr q (chars "#EXT-X-ENDLIST") = false →
        content = p ++ chars "#EXT-X-ENDLIST" ++ q ∧
        merged_playlist content mf res bw =
          some (p ++ (image_stream_line bw res mf ++ chars "#EXT-X-ENDLIST") ++ q)) := by
  constructor
  · intro hsi
    obtain ⟨p, q, hpq⟩ := splitAtFirst_isSome _ _ hsi
    refine ⟨p, q, hpq, splitAtFirst_decomp _ _ _ _ hpq, ?_,
      fun p' q' h => splitAtFirst_min _ _ _ _ hpq p' q' h⟩
    have hrf := replaceFirst_of_split (chars "#EXT-X-STREAM-INF")
      (image_stream_line bw res mf ++ chars "#EXT-X-STREAM-INF") content p q hpq
    simp [merged_playlist, hmf, hsi, hrf]
  · intro hsi p q hpq hq
    refine ⟨splitAtFirst_decomp _ _ _ _ hpq, ?_⟩
    have hra := replaceAll_of_split_ne (chars "#EXT-X-ENDLIST")
      (image_stream_line bw res mf ++ chars "#EXT-X-ENDLIST") (by decide)
      content p q hpq hq
    simp [merged_playlist, hmf, hsi, hra]

theorem C3_insertion_position_witness :
    containsSubstr (chars "#EXTM3U\n#EXT-X-STREAM-INF:B\nv.m3u8\n#EXT-X-ENDLIST")
      (chars "tp.m3u8") = false ∧
    ((containsSubstr (chars "#EXTM3U\n#EXT-X-STREAM-INF:B\nv.m3u8\n#EXT-X-ENDLIST")
        (chars "#EXT-X-STREAM-INF") = true →
      ∃ p q, splitAtFirst (chars "#EXTM3U\n#EXT-X-STREAM-INF:B\nv.m3u8\n#EXT-X-ENDLIST")
          (chars "#EXT-X-STREAM-INF") = some (p, q) ∧
        chars "#EXTM3U\n#EXT-X-STREAM-INF:B\nv.m3u8\n#EXT-X-ENDLIST" =
          p ++ chars "#EXT-X-STREAM-INF" ++ q ∧
        merged_playlist (chars "#EXTM3U\n#EXT-X-STREAM-INF:B\nv.m3u8\n#EXT-X-ENDLIST")
            (chars "tp.m3u8") (chars "320x180") 16460 =
          some (p ++ (image_stream_line 16460 (chars "320x180") (chars "tp.m3u8") ++
            chars "#EXT-X-STREAM-INF") ++ q) ∧
        ∀ p' q', chars "#EXTM3U\n#EXT-X-STREAM-INF:B\nv.m3u8\n#EXT-X-ENDLIST" =
            p' ++ chars "#EXT-X-STREAM-INF" ++ q' → p.length ≤ p'.length) ∧
     (containsSubstr (chars "#EXTM3U\n#EXT-X-STREAM-INF:B\nv.m3u8\n#EXT-X-ENDLIST")
        (chars "#EXT-X-STREAM-INF") = false →
      ∀ p q, splitAtFirst (chars "#EXTM3U\n#EXT-X-STREAM-INF:B\nv.m3u8\n#EXT-X-ENDLIST")
          (chars "#EXT-X-ENDLIST") = some (p, q) →
        containsSubstr q (chars "#EXT-X-ENDLIST") = false →
        chars "#EXTM3U\n#EXT-X-STREAM-INF:B\nv.m3u8\n#EXT-X-ENDLIST" =
          p ++ chars "#EXT-X-ENDLIST" ++ q ∧
        merged_playlist (chars "#EXTM3U\n#EXT-X-STREAM-INF:B\nv.m3u8\n#EXT-X-ENDLIST")
            (chars "tp.m3u8") (chars "320x180") 16460 =
          some (p ++ (image_stream_line 16460 (chars "320x180") (chars "tp.m3u8") ++
            chars "#EXT-X-ENDLIST") ++ q))) :=
  ⟨by decide,
   C3_insertion_position (chars "#EXTM3U\n#EXT-X-STREAM-INF:B\nv.m3u8\n#EXT-X-ENDLIST")
     (chars "tp.m3u8") (chars "320x180") 16460 (by decide)⟩

theorem not_newline_append {a b : Str} (ha : ('\n' : Char) ∉ a) (hb : ('\n' : Char) ∉ b) :
    ('\n' : Char) ∉ a ++ b := by
  simp only [List.mem_append]
  tauto

theorem not_newline_relative_path (mp : Str) :
    ('\n' : Char) ∉ manifest_relative_path mp := by
  unfold manifest_relative_path
  split <;> decide

theorem manifest_lines_no_newline (cfg : Config) (mp : Str) (ts : List Str) (res : Str)
    (hts : ∀ t ∈ ts, ('\n' : Char) ∉ last_component t)
    (hres : ('\n' : Char) ∉ res)
    (hint : ('\n' : Char) ∉ natChars cfg.THUMBNAIL_INTERVAL) :
    ∀ x ∈ manifest_lines cfg mp ts res, ('\n' : Char) ∉ x := by
  intro x hx
  simp only [manifest_lines, manifest_header_lines, manifest_entry_lines,
    List.mem_append, List.mem_cons, List.not_mem_nil, or_false, mem_flatMapL] at hx
  rcases hx with ((rfl | rfl | rfl | rfl | rfl | rfl | rfl) |
    ⟨t, ht, (rfl | rfl | rfl | rfl)⟩) | rfl
  · decide
  · exact not_newline_append (by decide) hint
  · decide
  · decide
  · decide
  · decide
  · simp
  · exact not_newline_append (not_newline_append (by decide) hint) (by decide)
  · exact not_newline_append
      (not_newline_append (not_newline_append (not_newline_append (by decide) hres)
        (by decide)) hint) (by decide)
  · exact not_newline_append (not_newline_relative_path mp) (hts t ht)
  · simp
  · decide

/-! ## Claim C2 -/

/-- C2: for every non-empty thumbnail list (whose names, the resolution
and the interval text contain no newline), splitting the generated
manifest document at newlines yields exactly the fixed header, then one
four-line tile-entry block per input key (duration directive, tile
directive with `RESOLUTION=..,LAYOUT=1x1,DURATION=..`, relative
thumbnail reference, blank line) in input order, then the end-of-list
marker. -/
theorem C2_tile_blocks (cfg : Config) (mp : Str) (ts : List Str) (res : Str)
    (_hne : ts ≠ [])
    (hts : ∀ t ∈ ts, ('\n' : Char) ∉ last_component t)
    (hres : ('\n' : Char) ∉ res)
    (hint : ('\n' : Char) ∉ natChars cfg.THUMBNAIL_INTERVAL) :
    splitLines (manifest_content cfg mp ts res) =
      manifest_header_lines cfg ++
        flatMapL (manifest_entry_lines cfg (manifest_relative_path mp) res) ts ++
        [chars "#EXT-X-ENDLIST"] := by
  have hmem := manifest_lines_no_newline cfg mp ts res hts hres hint
  have key : splitLines (joinLines (manifest_lines cfg mp ts res)) =
      manifest_lines cfg mp ts res := by
    rcases hml : manifest_lines cfg mp ts res with _ | ⟨l, ls⟩
    · exact absurd hml (by simp [manifest_lines, manifest_header_lines])
    · rw [splitLines_joinLines ls l (by rw [← hml]; exact hmem)]
  exact key

theorem C2_tile_blocks_witness :
    (([chars "content/v1/thumbs/v1_small.00001.jpg",
       chars "content/v1/thumbs/v1_small.00002.jpg"] : List Str) ≠ [] ∧
     (∀ t ∈ ([chars "content/v1/thumbs/v1_small.00001.jpg",
       chars "content/v1/thumbs/v1_small.00002.jpg"] : List Str),
        ('\n' : Char) ∉ last_component t)) ∧
    splitLines (manifest_content defaultConfig (chars "content/v1/")
        [chars "content/v1/thumbs/v1_small.00001.jpg",
         chars "content/v1/thumbs/v1_small.00002.jpg"] (chars "320x180")) =
      manifest_header_lines defaultConfig ++
        flatMapL (manifest_entry_lines defaultConfig
          (manifest_relative_path (chars "content/v1/")) (chars "320x180"))
          [chars "content/v1/thumbs/v1_small.00001.jpg",
           chars "content/v1/thumbs/v1_small.00002.jpg"] ++
        [chars "#EXT-X-ENDLIST"] :=
  ⟨⟨by decide, by decide⟩,
   C2_tile_blocks defaultConfig (chars "content/v1/")
     [chars "content/v1/thumbs/v1_small.00001.jpg",
      chars "content/v1/thumbs/v1_small.00002.jpg"] (chars "320x180")
     (by decide) (by decide) (by decide) (by decide)⟩

/-! ## Claim C4 -/

/-- C4: relative path prefix — every thumbnail reference line of the
generated manifest is the relative prefix followed by the thumbnail's
filename, where the prefix is `../thumbs/` exactly when the media path
contains an `hls/` segment and `thumbs/` otherwise; in particular
`content/v1/hls/` yields `../thumbs/` and `content/v1/` yields
`thumbs/`. -/
theorem C4_relative_path_choice (cfg : Config) (mp : Str) (ts : List Str) (res t : Str)
    (ht : t ∈ ts) :
    (manifest_relative_path mp ++ last_component t) ∈ manifest_lines cfg mp ts res ∧
    (containsSubstr mp (chars "hls/") = true →
      manifest_relative_path mp = chars "../thumbs/") ∧
    (containsSubstr mp (chars "hls/") = false →
      manifest_relative_path mp = chars "thumbs/") ∧
    manifest_relative_path (chars "content/v1/hls/") = chars "../thumbs/" ∧
    manifest_relative_path (chars "content/v1/") = chars "thumbs/" := by
  refine ⟨?_, fun h => by simp [manifest_relative_path, h],
    fun h => by simp [manifest_relative_path, h], by decide, by decide⟩
  simp only [manifest_lines, List.mem_append]
  left; right
  rw [mem_flatMapL]
  exact ⟨t, ht, by simp [manifest_entry_lines]⟩

theorem C4_relative_path_choice_witness :
    (chars "content/v1/thumbs/v1_small.00001.jpg" ∈
      ([chars "content/v1/thumbs/v1_small.00001.jpg"] : List Str)) ∧
    ((manifest_relative_path (chars "content/v1/") ++
        last_component (chars "content/v1/thumbs/v1_small.00001.jpg")) ∈
      manifest_lines defaultConfig (chars "content/v1/")
        [chars "content/v1/thumbs/v1_small.00001.jpg"] (chars "320x180") ∧
     (containsSubstr (chars "content/v1/") (chars "hls/") = true →
       manifest_relative_path (chars "content/v1/") = chars "../thumbs/") ∧
     (containsSubstr (chars "content/v1/") (chars "hls/") = false →
       manifest_relative_path (chars "content/v1/") = chars "thumbs/") ∧
     manifest_relative_path (chars "content/v1/hls/") = chars "../thumbs/" ∧
     manifest_relative_path (chars "content/v1/") = chars "thumbs/") :=
  ⟨by decide,
   C4_relative_path_choice defaultConfig (chars "content/v1/")
     [chars "content/v1/thumbs/v1_small.00001.jpg"] (chars "320x180")
     (chars "content/v1/thumbs/v1_small.00001.jpg") (by decide)⟩

/-! ## Claim C5 -/

/-- C5: a resolution with an empty thumbnail list is skipped entirely —
it is absent from the returned status map, and the only storage keys the
call can touch are the other resolution's manifest key and the master
playlist key, so the skipped resolution's manifest object (and every
other key) is unchanged. -/
theorem C5_empty_list_skip (cfg : Config) (σ : S3) (mp hls : Str) (small big : List Str) :
    ((∀ rs, (create_manifests_and_update_playlist cfg σ mp hls [] big).2 = .ok rs →
        ∀ m, ("small", m) ∉ rs) ∧
     (∀ k, k ≠ mp ++ manifest_filename cfg.THUMBNAIL_BIG_RESOLUTION →
        playlist_key_of hls ≠ some k →
        ((create_manifests_and_update_playlist cfg σ mp hls [] big).1).get k = σ.get k)) ∧
    ((∀ rs, (create_manifests_and_update_playlist cfg σ mp hls small []).2 = .ok rs →
        ∀ m, ("big", m) ∉ rs) ∧
     (∀ k, k ≠ mp ++ manifest_filename cfg.THUMBNAIL_SMALL_RESOLUTION →
        playlist_key_of hls ≠ some k →
        ((create_manifests_and_update_playlist cfg σ mp hls small []).1).get k =
          σ.get k)) := by
  constructor
  · cases hbe : big.isEmpty with
    | true =>
      constructor
      · intro rs hrs m
        simp [create_manifests_and_update_playlist, hbe] at hrs
        subst hrs
        simp
      · intro k _ _
        simp [create_manifests_and_update_playlist, hbe]
    | false =>
      rcases hcb : create_manifest cfg σ mp hls big
        cfg.THUMBNAIL_BIG_RESOLUTION cfg.THUMBNAIL_BIG_BANDWIDTH with ⟨σ2, r⟩
      have hframe : ∀ k, k ≠ mp ++ manifest_filename cfg.THUMBNAIL_BIG_RESOLUTION →
          playlist_key_of hls ≠ some k → σ2.get k = σ.get k := by
        intro k hk1 hk2
        have := create_manifest_frame cfg σ mp hls big
          cfg.THUMBNAIL_BIG_RESOLUTION cfg.THUMBNAIL_BIG_BANDWIDTH k hk1 hk2
        rw [hcb] at this
        exact this
      cases r with
      | ok m =>
        constructor
        · intro rs hrs m'
          simp [create_manifests_and_update_playlist, hbe, hcb] at hrs
          subst hrs
          simp
        · intro k hk1 hk2
          simp [create_manifests_and_update_playlist, hbe, hcb, hframe k hk1 hk2]
      | error e =>
        constructor
        · intro rs hrs m'
          simp [create_manifests_and_update_playlist, hbe, hcb] at hrs
        · intro k hk1 hk2
          simp [create_manifests_and_update_playlist, hbe, hcb, hframe k hk1 hk2]
  · cases hse : small.isEmpty with
    | true =>
      constructor
      · intro rs hrs m
        simp [create_manifests_and_update_playlist, hse] at hrs
        subst hrs
        simp
      · intro k _ _
        simp [create_manifests_and_update_playlist, hse]
    | false =>
      rcases hcs : create_manifest cfg σ mp hls small
        cfg.THUMBNAIL_SMALL_RESOLUTION cfg.THUMBNAIL_SMALL_BANDWIDTH with ⟨σ1, r⟩
      have hframe : ∀ k, k ≠ mp ++ manifest_filename cfg.THUMBNAIL_SMALL_RESOLUTION →
          playlist_key_of hls ≠ some k → σ1.get k = σ.get k := by
        intro k hk1 hk2
        have := create_manifest_frame cfg σ mp hls small
          cfg.THUMBNAIL_SMALL_RESOLUTION cfg.THUMBNAIL_SMALL_BANDWIDTH k hk1 hk2
        rw [hcs] at this
        exact this
      cases r with
      | ok m =>
        constructor
        · intro rs hrs m'
          simp [create_manifests_and_update_playlist, hse, hcs] at hrs
          subst hrs
          simp
        · intro k hk1 hk2
          simp [create_manifests_and_update_playlist, hse, hcs, hframe k hk1 hk2]
      | error e =>
        constructor
        · intro rs hrs m'
          simp [create_manifests_and_update_playlist, hse, hcs] at hrs
        · intro k hk1 hk2
          simp [create_manifests_and_update_playlist, hse, hcs, hframe k hk1 hk2]

theorem C5_empty_list_skip_witness :
    ((create_manifests_and_update_playlist defaultConfig
        (S3.mk [(chars "a/p.m3u8", chars "#EXTM3U\n#EXT-X-ENDLIST")])
        (chars "a/") (chars "s3://b/a/p.m3u8") [] [chars "u.jpg"]).2 =
      .ok [("big", chars "Created thumbs_640x360.m3u8 for 640x360")] ∧
     chars "z" ≠ chars "a/" ++ manifest_filename defaultConfig.THUMBNAIL_BIG_RESOLUTION ∧
     playlist_key_of (chars "s3://b/a/p.m3u8") ≠ some (chars "z")) ∧
    (("small", chars "x") ∉
      ([("big", chars "Created thumbs_640x360.m3u8 for 640x360")] : List (String × Str)) ∧
     ((create_manifests_and_update_playlist defaultConfig
        (S3.mk [(chars "a/p.m3u8", chars "#EXTM3U\n#EXT-X-ENDLIST")])
        (chars "a/") (chars "s3://b/a/p.m3u8") [] [chars "u.jpg"]).1).get (chars "z") =
      (S3.mk [(chars "a/p.m3u8", chars "#EXTM3U\n#EXT-X-ENDLIST")]).get (chars "z")) :=
  ⟨⟨by decide, by decide, by decide⟩,
   (C5_empty_list_skip defaultConfig
      (S3.mk [(chars "a/p.m3u8", chars "#EXTM3U\n#EXT-X-ENDLIST")])
      (chars "a/") (chars "s3://b/a/p.m3u8") [] [chars "u.jpg"]).1.1
     [("big", chars "Created thumbs_640x360.m3u8 for 640x360")] (by decide) (chars "x"),
   (C5_empty_list_skip defaultConfig
      (S3.mk [(chars "a/p.m3u8", chars "#EXTM3U\n#EXT-X-ENDLIST")])
      (chars "a/") (chars "s3://b/a/p.m3u8") [] [chars "u.jpg"]).1.2
     (chars "z") (by decide) (by decide)⟩

theorem replaceAll_strip (pat t : Str) (hne : pat ≠ [])
    (ht : containsSubstr t pat = false) : replaceAll (pat ++ t) pat [] = t := by
  cases pat with
  | nil => exact absurd rfl hne
  | cons p ps =>
    have h0 : replaceAll ((p :: ps) ++ t) (p :: ps) [] =
        replaceAllGo (p :: ps) [] 0 ((p :: ps) ++ t) := by
      simp [replaceAll]
    rw [h0, replaceAllGo_head, replaceAllGo_id _ _ _ ht]
    simp

/-! ## Claim C6 -/

/-- C6: the invalidation message paths are exactly four, rooted at the
job's media path: the master playlist, the two per-resolution trick-play
manifest names the Composer writes (default configuration), and a
wildcard covering the thumbnails folder; for a well-formed
`s3://bucket/...` HLS URL the first path is the master playlist key the
Composer reads and rewrites. -/
theorem C6_invalidation_paths (mp bucket : Str)
    (hb : containsSubstr (bucket ++ chars "/" ++ mp ++ chars "play.m3u8")
      (chars "s3://") = false)
    (hslash : ('/' : Char) ∉ bucket) :
    build_invalidation_paths mp =
      [chars "/" ++ (mp ++ chars "play.m3u8"),
       chars "/" ++ (mp ++ manifest_filename defaultConfig.THUMBNAIL_SMALL_RESOLUTION),
       chars "/" ++ (mp ++ manifest_filename defaultConfig.THUMBNAIL_BIG_RESOLUTION),
       chars "/" ++ (mp ++ (defaultConfig.THUMBNAILS_FOLDER ++ chars "/")) ++ chars "*"] ∧
    (build_invalidation_paths mp).length = 4 ∧
    playlist_key_of (chars "s3://" ++ (bucket ++ chars "/" ++ mp ++ chars "play.m3u8")) =
      some (mp ++ chars "play.m3u8") := by
  refine ⟨?_, by simp [build_invalidation_paths], ?_⟩
  · have e1 : manifest_filename defaultConfig.THUMBNAIL_SMALL_RESOLUTION =
        chars "thumbs_320x180.m3u8" := by decide
    have e2 : manifest_filename defaultConfig.THUMBNAIL_BIG_RESOLUTION =
        chars "thumbs_640x360.m3u8" := by decide
    have e3 : (defaultConfig.THUMBNAILS_FOLDER ++ chars "/" : Str) = chars "thumbs/" := by
      decide
    have e4 : (chars "thumbs/" ++ chars "*" : Str) = chars "thumbs/*" := by decide
    rw [e1, e2, e3]
    simp [build_invalidation_paths, List.append_assoc, e4]
  · have hstrip := replaceAll_strip (chars "s3://")
      (bucket ++ chars "/" ++ mp ++ chars "play.m3u8") (by decide) hb
    unfold playlist_key_of
    rw [hstrip]
    have hR : (bucket ++ chars "/" ++ mp ++ chars "play.m3u8" : Str) =
        bucket ++ '/' :: (mp ++ chars "play.m3u8") := by
      rw [show (chars "/" : Str) = ['/'] from rfl]
      simp [List.append_assoc]
    rw [hR, splitOnceAfter_append '/' bucket _ hslash]

theorem C6_invalidation_paths_witness :
    (containsSubstr (chars "b" ++ chars "/" ++ chars "a/" ++ chars "play.m3u8")
      (chars "s3://") = false ∧ ('/' : Char) ∉ chars "b") ∧
    (build_invalidation_paths (chars "a/") =
      [chars "/" ++ (chars "a/" ++ chars "play.m3u8"),
       chars "/" ++ (chars "a/" ++
         manifest_filename defaultConfig.THUMBNAIL_SMALL_RESOLUTION),
       chars "/" ++ (chars "a/" ++
         manifest_filename defaultConfig.THUMBNAIL_BIG_RESOLUTION),
       chars "/" ++ (chars "a/" ++ (defaultConfig.THUMBNAILS_FOLDER ++ chars "/")) ++
         chars "*"] ∧
     (build_invalidation_paths (chars "a/")).length = 4 ∧
     playlist_key_of (chars "s3://" ++
        (chars "b" ++ chars "/" ++ chars "a/" ++ chars "play.m3u8")) =
      some (chars "a/" ++ chars "play.m3u8")) :=
  ⟨⟨by decide, by decide⟩,
   C6_invalidation_paths (chars "a/") (chars "b") (by decide) (by decide)⟩

/-! ## Claim C7 -/

/-- C7: if the frame sampler exits non-zero the Extractor raises an
`FFMpegError` carrying the captured stderr (storage untouched), and any
failure inside `generate_thumbnails` surfaces as a single typed
`FFMpegError` to the caller — the call either succeeds or returns an
`FFMpegError`, with no retry. -/
theorem C7_ffmpeg_error (cfg : Config) (σ : S3) (hls mk mp : Str) (r1 r2 : FFmpegRun) :
    (r1.returncode ≠ 0 → r1.stderr ≠ [] →
      generate_resolution_thumbnails cfg σ r1 mk mp =
        (σ, .error (.FFMpegError (chars "FFmpeg failed for " ++ mk ++ chars ": " ++
          r1.stderr))) ∧
      containsSubstr (chars "FFmpeg failed for " ++ mk ++ chars ": " ++ r1.stderr)
        r1.stderr = true) ∧
    ((∃ σ' v, generate_thumbnails cfg σ hls mk mp r1 r2 = (σ', .ok v)) ∨
     (∃ σ' m, generate_thumbnails cfg σ hls mk mp r1 r2 =
        (σ', .error (.FFMpegError m)))) := by
  constructor
  · intro h1 h2
    have hse : r1.stderr.isEmpty = false := by
      cases hs : r1.stderr with
      | nil => exact absurd hs h2
      | cons a as => rfl
    constructor
    · simp [generate_resolution_thumbnails, h1, hse]
    · have hc := containsSubstr_append_mid r1.stderr
        (chars "FFmpeg failed for " ++ mk ++ chars ": ") []
      simpa [List.append_assoc] using hc
  · rcases hq : playlist_key_of hls with _ | key
    · exact .inr ⟨σ, chars "Failed to generate thumbnails for " ++ mk ++ chars ": " ++
        PyError.IndexError.msg, by simp [generate_thumbnails, hq]⟩
    · rcases hg : σ.get key with _ | c
      · exact .inr ⟨σ, chars "Failed to generate thumbnails for " ++ mk ++ chars ": " ++
          (PyError.S3Error (chars "Error downloading")).msg,
          by simp [generate_thumbnails, hq, hg]⟩
      · rcases hs1 : generate_resolution_thumbnails cfg σ r1 mk mp with ⟨σ1, rr1⟩
        cases rr1 with
        | error e =>
          exact .inr ⟨σ1, chars "Failed to generate thumbnails for " ++ mk ++
            chars ": " ++ e.msg, by simp [generate_thumbnails, hq, hg, hs1]⟩
        | ok small =>
          rcases hs2 : generate_resolution_thumbnails cfg σ1 r2 mk mp with ⟨σ2, rr2⟩
          cases rr2 with
          | error e =>
            exact .inr ⟨σ2, chars "Failed to generate thumbnails for " ++ mk ++
              chars ": " ++ e.msg, by simp [generate_thumbnails, hq, hg, hs1, hs2]⟩
          | ok big =>
            exact .inl ⟨σ2, (small, big), by simp [generate_thumbnails, hq, hg, hs1, hs2]⟩

theorem C7_ffmpeg_error_witness :
    ((1 : Int) ≠ 0 ∧ (chars "boom" : Str) ≠ []) ∧
    (generate_resolution_thumbnails defaultConfig (S3.mk [])
        ⟨1, chars "boom", []⟩ (chars "v1") (chars "a/") =
      (S3.mk [], .error (.FFMpegError (chars "FFmpeg failed for " ++ chars "v1" ++
        chars ": " ++ chars "boom"))) ∧
     containsSubstr (chars "FFmpeg failed for " ++ chars "v1" ++ chars ": " ++
        chars "boom") (chars "boom") = true) :=
  ⟨⟨by decide, by decide⟩,
   (C7_ffmpeg_error defaultConfig (S3.mk []) (chars "s3://b/a/p.m3u8") (chars "v1")
      (chars "a/") ⟨1, chars "boom", []⟩ ⟨0, [], []⟩).1 (by decide) (by decide)⟩

/-! ## Claim C8 (corrected) -/

/-- C8 counterexample: with no distribution id configured and no
distribution id argument, a call with an empty path list does NOT return
`None` — the distribution-id check precedes the empty-path check and the
call fails with a `CDNInvalidationError` (still making no provider
call). -/
theorem C8_empty_paths_counterexample :
    invalidate_cache none [] none (.ok []) =
      (.error (.CDNInvalidationError
        (chars "Failed to invalidate cache: CloudFront distribution ID not configured")),
       []) ∧
    (invalidate_cache none [] none (.ok [])).1 ≠ .ok none := ⟨by decide, by decide⟩

/-- C8 amended: provided a (truthy) distribution id is available from
the argument or the configuration, a call with an empty path list
performs no CDN provider call and returns no invalidation identifier
(`None`) instead of failing. -/
theorem C8_empty_paths_noop (cfgDist distribution_id : Option Str) (d : Str)
    (paths : List Str) (cdn : Except Str Str)
    (hd : (truthy distribution_id).orElse (fun _ => truthy cfgDist) = some d)
    (hp : paths = []) :
    invalidate_cache cfgDist paths distribution_id cdn = (.ok none, []) := by
  subst hp
  simp [invalidate_cache, hd]

theorem C8_empty_paths_noop_witness :
    ((truthy none).orElse (fun _ => truthy (some (chars "D"))) = some (chars "D") ∧
     ([] : List Str) = []) ∧
    invalidate_cache (some (chars "D")) [] none (.ok []) = (.ok none, []) :=
  ⟨⟨by decide, rfl⟩,
   C8_empty_paths_noop (some (chars "D")) none (chars "D") [] (.ok [])
     (by decide) rfl⟩

/-! ## Claim C9 -/

theorem updater_records_skip (cfg : Config) (bad : SqsRecord) (hbad : bad.body = none) :
    ∀ rs₁ : List SqsRecord, ∀ σ : S3, ∀ rs₂ : List SqsRecord,
    updater_handler_records cfg σ (rs₁ ++ bad :: rs₂) =
      updater_handler_records cfg σ (rs₁ ++ rs₂) := by
  intro rs₁
  induction rs₁ with
  | nil =>
    intro σ rs₂
    simp [updater_handler_records, updater_process_record, hbad]
  | cons r rs ih =>
    intro σ rs₂
    simp [updater_handler_records, ih]

theorem invalidator_records_skip (cfg : Config) (ibad : InvRecord)
    (hibad : ibad.body = none) :
    ∀ irs₁ irs₂ : List InvRecord,
    invalidator_handler_records cfg (irs₁ ++ ibad :: irs₂) =
      invalidator_handler_records cfg (irs₁ ++ irs₂) := by
  intro irs₁
  induction irs₁ with
  | nil =>
    intro irs₂
    simp [invalidator_handler_records, invalidator_process_record, hibad]
  | cons r rs ih =>
    intro irs₂
    simp [invalidator_handler_records, ih]

/-- C9: per-record error isolation — a record whose body fails to parse
is logged and skipped: the batch result (final storage state, published
messages, provider calls, response) is the same as if the record were
absent, and with valid configuration both handlers return a success
response (status 200) for every batch. -/
theorem C9_record_isolation (cfg : Config) (σ : S3) (rs₁ rs₂ : List SqsRecord)
    (bad : SqsRecord) (irs₁ irs₂ : List InvRecord) (ibad : InvRecord)
    (hbad : bad.body = none) (hibad : ibad.body = none) :
    updater_lambda_handler cfg σ (rs₁ ++ bad :: rs₂) =
      updater_lambda_handler cfg σ (rs₁ ++ rs₂) ∧
    (cfg.validateOk = true → ∀ records : List SqsRecord,
      (updater_lambda_handler cfg σ records).2.2.statusCode = 200) ∧
    invalidator_lambda_handler cfg (irs₁ ++ ibad :: irs₂) =
      invalidator_lambda_handler cfg (irs₁ ++ irs₂) ∧
    (cfg.validateOk = true → ∀ records : List InvRecord,
      (invalidator_lambda_handler cfg records).2.statusCode = 200) := by
  refine ⟨?_, ?_, ?_, ?_⟩
  · cases hv : cfg.validateOk with
    | true => simp [updater_lambda_handler, hv, updater_records_skip cfg bad hbad]
    | false => simp [updater_lambda_handler, hv]
  · intro hv records
    simp [updater_lambda_handler, hv]
  · cases hv : cfg.validateOk with
    | true =>
      simp [invalidator_lambda_handler, hv, invalidator_records_skip cfg ibad hibad]
    | false => simp [invalidator_lambda_handler, hv]
  · intro hv records
    simp [invalidator_lambda_handler, hv]

theorem C9_record_isolation_witness :
    ((SqsRecord.mk none (chars "r")).body = none ∧
     (InvRecord.mk none (chars "r") (.ok (chars "i"))).body = none ∧
     Config.validateOk { AWS_S3_BUCKET := some (chars "b"), AWS_CLOUDFRONT_DISTRIBUTION_ID := some (chars "D") } = true) ∧
    (updater_lambda_handler
        { AWS_S3_BUCKET := some (chars "b"), AWS_CLOUDFRONT_DISTRIBUTION_ID := some (chars "D") } (S3.mk [])
        ([] ++ SqsRecord.mk none (chars "r") :: []) =
      updater_lambda_handler
        { AWS_S3_BUCKET := some (chars "b"), AWS_CLOUDFRONT_DISTRIBUTION_ID := some (chars "D") } (S3.mk []) ([] ++ []) ∧
     invalidator_lambda_handler
        { AWS_S3_BUCKET := some (chars "b"), AWS_CLOUDFRONT_DISTRIBUTION_ID := some (chars "D") }
        ([] ++ InvRecord.mk none (chars "r") (.ok (chars "i")) :: []) =
      invalidator_lambda_handler
        { AWS_S3_BUCKET := some (chars "b"), AWS_CLOUDFRONT_DISTRIBUTION_ID := some (chars "D") } ([] ++ []) ∧
     (updater_lambda_handler
        { AWS_S3_BUCKET := some (chars "b"), AWS_CLOUDFRONT_DISTRIBUTION_ID := some (chars "D") } (S3.mk [])
        [SqsRecord.mk none (chars "r")]).2.2.statusCode = 200) := by
  have h := C9_record_isolation
    { AWS_S3_BUCKET := some (chars "b"), AWS_CLOUDFRONT_DISTRIBUTION_ID := some (chars "D") } (S3.mk []) [] []
    (SqsRecord.mk none (chars "r")) [] []
    (InvRecord.mk none (chars "r") (.ok (chars "i"))) rfl rfl
  exact ⟨⟨rfl, rfl, by decide⟩,
    h.1, h.2.2.1, h.2.1 (by decide) [SqsRecord.mk none (chars "r")]⟩
